import Mathlib

/-!
Shallow embedding of `src/app.py` (oracle-mvp): a FastAPI application with a
single `Scan` table, an images directory, and five route handlers.  The
database is a list of rows, the filesystem a finite map from path to bytes,
and each handler a pure function from request data and state to a response
and a new state.  External nondeterminism (clock, camera binary lookup,
subprocess success, uploaded bytes) is passed in explicitly.
-/

namespace Oracle

/-- Images directory `IMG_DIR = DATA_DIR / "images"` with `DATA_DIR = ROOT / "data"` (app.py
lines 16-18), as a ROOT-relative string. -/
def IMG_DIR : String := "data/images"

/-- Joining paths with `a / b` inserts a single separator. -/
def pathJoin (a b : String) : String := a ++ "/" ++ b

/-- The `Scan` SQLModel table (app.py lines 25-30).  `captured_at` is an
abstract timestamp. -/
structure Scan where
  id : Nat
  image_path : String
  status : String
  specimen : Option String
  captured_at : Nat
deriving Repr, DecidableEq

/-- Application state: the single table, the autoincrement counter of the
next primary key, and the files on disk (path, bytes). -/
structure AppState where
  db : List Scan
  nextId : Nat
  fs : List (String × List Nat)
deriving Repr, DecidableEq

/-- Fresh database and empty images directory, id counter at 1 (SQLite
rowids start at 1). -/
def AppState.init : AppState := { db := [], nextId := 1, fs := [] }

/-- Writing a file: `open("wb")` truncates, so any previous entry at the
same path is replaced. -/
def fsWrite (fs : List (String × List Nat)) (p : String) (b : List Nat) :
    List (String × List Nat) :=
  (p, b) :: fs.filter (fun e => e.1 != p)

/-- Reading a file's bytes, `none` when the path does not exist. -/
def fsRead (fs : List (String × List Nat)) (p : String) : Option (List Nat) :=
  (fs.find? (fun e => e.1 == p)).map (fun e => e.2)

/-- Does a path exist on disk? -/
def fsExists (fs : List (String × List Nat)) (p : String) : Bool :=
  (fsRead fs p).isSome

/-- Primary-key lookup `s.get(Scan, scan_id)`. -/
def dbGet (db : List Scan) (i : Nat) : Option Scan :=
  db.find? (fun r => r.id == i)

/-- The responses the handlers return: `RedirectResponse(url, status_code)`,
`HTMLResponse(body, status_code)`, or a rendered `TemplateResponse` (status
200) carrying the template name and the context values the claims speak
about (the scan record and its image url). -/
inductive Response where
  | redirect (url : String) (code : Nat)
  | html (body : String) (code : Nat)
  | page (tmpl : String) (scan : Option Scan) (image_url : Option String)
deriving Repr, DecidableEq

/-- HTTP status code of a response (`TemplateResponse` defaults to 200). -/
def Response.code : Response → Nat
  | .redirect _ c => c
  | .html _ c => c
  | .page _ _ _ => 200

/-- Environment seen by the capture path: `shutil.which`, `Path.exists`,
whether the camera subprocess exits zero, and the bytes it would write. -/
structure CamEnv where
  which : String → Option String
  pathExists : String → Bool
  procSucceeds : Bool
  camBytes : List Nat

/-- Python `x or y` on an optional string: `None` and the empty string are
falsy. -/
def orElseStr (x : Option String) (y : String) : String :=
  match x with
  | some s => if s = "" then y else s
  | none => y

/-- Helper `_camera_bin` (app.py lines 45-51): try `rpicam-still` then
`libcamera-still`; for each, `shutil.which(name) or f"/usr/bin/{name}"`,
returned when that path exists. -/
def camera_bin (env : CamEnv) : Option String :=
  let tryName := fun (n : String) =>
    let p := orElseStr (env.which n) ("/usr/bin/" ++ n)
    if env.pathExists p then some p else none
  match tryName "rpicam-still" with
  | some p => some p
  | none => tryName "libcamera-still"

/-- Split a character list at every occurrence of a separator, Python
`str.split(sep)` style: `n` separators give `n + 1` (possibly empty)
segments. -/
def splitOnChar (sep : Char) : List Char → List (List Char)
  | [] => [[]]
  | c :: cs =>
    match splitOnChar sep cs with
    | [] => if c = sep then [[], []] else [[c]]
    | s :: rest => if c = sep then [] :: s :: rest else (c :: s) :: rest

/-- Python `pathlib.PurePosixPath(p).name`: the final path component, with empty
and `"."` components dropped. -/
def pathName (p : String) : String :=
  let segs := (splitOnChar '/' p.data).filter (fun s => !s.isEmpty && s != ['.'])
  String.mk (segs.getLast?.getD [])

/-- Index of the last `'.'` in a character list, if any. -/
def rfindDot : List Char → Option Nat
  | [] => none
  | c :: cs =>
    match rfindDot cs with
    | some i => some (i + 1)
    | none => if c = '.' then some 0 else none

/-- Python `pathlib.PurePath(p).suffix`: the part of `name` from its last dot on,
empty when the last dot is absent, leading, or trailing. -/
def pathSuffix (p : String) : String :=
  let name := pathName p
  match rfindDot name.data with
  | some i =>
    if 0 < i ∧ i < name.data.length - 1 then String.mk (name.data.drop i) else ""
  | none => ""

/-- Python `str.lower`, over the characters. -/
def lowerStr (s : String) : String := String.mk (s.data.map Char.toLower)

/-- The message of the `RuntimeError` raised by `capture_photo` when no
camera binary is found (app.py lines 65-68). -/
def noCameraMsg : String :=
  "No camera CLI found. Install `rpicam-apps` (or `libcamera-apps`) and ensure rpicam-still/libcamera-still is on PATH."

/-- The exceptions `capture_photo` can raise. -/
inductive CamError where
  | calledProcessError
  | runtimeError (msg : String)
deriving Repr, DecidableEq

/-- Helper `capture_photo` (app.py lines 58-71): build
`IMG_DIR / f"capture_{ts}.jpg"`, raise `RuntimeError` when `_camera_bin()`
is `None`, run the binary with `check=True` (raising
`CalledProcessError` on nonzero exit), and return the output path. -/
def capture_photo (env : CamEnv) (ts : String) (st : AppState) :
    Except CamError (String × AppState) :=
  let out_path := pathJoin IMG_DIR ("capture_" ++ ts ++ ".jpg")
  match camera_bin env with
  | none => .error (.runtimeError noCameraMsg)
  | some _ =>
    if env.procSucceeds then
      .ok (out_path, { st with fs := fsWrite st.fs out_path env.camBytes })
    else
      .error .calledProcessError

/-- Helper `save_upload` (app.py lines 73-80): suffix is
`Path(file.filename).suffix.lower() or ".jpg"`, the file is written to
`IMG_DIR / f"scan_{ts}{suffix}"`, and that path returned. -/
def save_upload (ts filename : String) (content : List Nat) (st : AppState) :
    String × AppState :=
  let suffix0 := lowerStr (pathSuffix filename)
  let suffix := if suffix0 = "" then ".jpg" else suffix0
  let out_path := pathJoin IMG_DIR ("scan_" ++ ts ++ suffix)
  (out_path, { st with fs := fsWrite st.fs out_path content })

/-- The `POST /scan` handler `create_scan` (app.py lines 91-99): save the
upload, insert one row with `status="uploaded"`, redirect 303 to the new
row's detail page. -/
def create_scan (ts filename : String) (content : List Nat) (now : Nat)
    (st : AppState) : Response × AppState :=
  let res := save_upload ts filename content st
  let r : Scan :=
    { id := res.2.nextId, image_path := res.1, status := "uploaded",
      specimen := none, captured_at := now }
  let st2 := { res.2 with db := res.2.db ++ [r], nextId := res.2.nextId + 1 }
  (.redirect ("/scan/" ++ toString r.id) 303, st2)

/-- The `POST /capture` handler `capture_and_scan` (app.py lines 101-116):
`capture_photo` under `try`, a 500 `HTMLResponse` on either exception,
otherwise insert one row with `status="captured"` and redirect 303. -/
def capture_and_scan (env : CamEnv) (ts : String) (now : Nat)
    (st : AppState) : Response × AppState :=
  match capture_photo env ts st with
  | .error .calledProcessError =>
    (.html "<h3>Camera capture failed (rpi/libcamera error)</h3>" 500, st)
  | .error (.runtimeError m) => (.html ("<h3>" ++ m ++ "</h3>") 500, st)
  | .ok res =>
    let r : Scan :=
      { id := res.2.nextId, image_path := res.1, status := "captured",
        specimen := none, captured_at := now }
    let st2 := { res.2 with db := res.2.db ++ [r], nextId := res.2.nextId + 1 }
    (.redirect ("/scan/" ++ toString r.id) 303, st2)

/-- Helper `fs_path_to_url` (app.py lines 53-56). -/
def fs_path_to_url (p : String) : String := "/images/" ++ pathName p

/-- The `GET /scan/{scan_id}` handler `scan_show` (app.py lines 118-129): 404
when the id is absent, otherwise render `scan_show.html` with the record
and its image url. -/
def scan_show (scan_id : Nat) (st : AppState) : Response × AppState :=
  match dbGet st.db scan_id with
  | none => (.html "<h3>Scan not found.</h3>" 404, st)
  | some r =>
    (.page "scan_show.html" (some r) (some (fs_path_to_url r.image_path)), st)

/-- One incoming HTTP request, with the external nondeterminism each
handler consumes. -/
inductive Action where
  | getHome
  | getScanNew
  | postScan (ts filename : String) (content : List Nat) (now : Nat)
  | postCapture (env : CamEnv) (ts : String) (now : Nat)
  | getScan (scan_id : Nat)
  | getSpecimens

/-- The whole application: dispatch one request to its handler (app.py
lines 83-138).  `GET /`, `GET /scan/new` and `GET /specimens` only render
templates. -/
def stepApp : Action → AppState → Response × AppState
  | .getHome, st => (.page "home.html" none none, st)
  | .getScanNew, st => (.page "scan.html" none none, st)
  | .postScan ts filename content now, st => create_scan ts filename content now st
  | .postCapture env ts now, st => capture_and_scan env ts now st
  | .getScan i, st => scan_show i st
  | .getSpecimens, st => (.page "specimens.html" none none, st)

/-- States the application can reach from a fresh database by handling
requests. -/
inductive Reachable : AppState → Prop where
  | init : Reachable AppState.init
  | step (a : Action) {st : AppState} :
      Reachable st → Reachable (stepApp a st).2

/-- A path lying under the images directory. -/
def UnderImg (p : String) : Bool :=
  (IMG_DIR ++ "/").data.isPrefixOf p.data

/-- The spec's data-model invariant: on-disk paths are unique, and every
row's `image_path` matches exactly one file, under `IMG_DIR`. -/
def Inv (st : AppState) : Prop :=
  (st.fs.map Prod.fst).Nodup ∧
  ∀ r ∈ st.db,
    st.fs.countP (fun e => e.1 == r.image_path) = 1 ∧ UnderImg r.image_path = true

/-- Run a sequence of requests from a state. -/
def runFrom (st : AppState) : List Action → AppState
  | [] => st
  | a :: acts => runFrom (stepApp a st).2 acts

/-- A host with no camera binary anywhere: `shutil.which` finds nothing and
no fallback path exists. -/
def noCamEnv : CamEnv :=
  { which := fun _ => none, pathExists := fun _ => false,
    procSucceeds := true, camBytes := [] }

/-- A host where `rpicam-still` resolves and the capture succeeds. -/
def okCamEnv : CamEnv :=
  { which := fun n => if n = "rpicam-still" then some "/usr/bin/rpicam-still" else none,
    pathExists := fun _ => true, procSucceeds := true, camBytes := [5, 6] }

/-! Helper lemmas shared by the claim theorems. -/

theorem db_step_append (a : Action) (st : AppState) :
    ∃ tail : List Scan, (stepApp a st).2.db = st.db ++ tail ∧ tail.length ≤ 1 := by
  cases a with
  | getHome => exact ⟨[], by simp [stepApp], by simp⟩
  | getScanNew => exact ⟨[], by simp [stepApp], by simp⟩
  | getSpecimens => exact ⟨[], by simp [stepApp], by simp⟩
  | getScan i =>
    cases h : dbGet st.db i with
    | none => exact ⟨[], by simp [stepApp, scan_show, h], by simp⟩
    | some r => exact ⟨[], by simp [stepApp, scan_show, h], by simp⟩
  | postScan ts filename content now =>
    exact ⟨[_], rfl, by simp⟩
  | postCapture env ts now =>
    cases hc : camera_bin env with
    | none => exact ⟨[], by simp [stepApp, capture_and_scan, capture_photo, hc], by simp⟩
    | some c =>
      by_cases hp : env.procSucceeds = true
      · refine ⟨[{ id := st.nextId,
                   image_path := pathJoin IMG_DIR ("capture_" ++ ts ++ ".jpg"),
                   status := "captured", specimen := none,
                   captured_at := now }], ?_, by simp⟩
        simp [stepApp, capture_and_scan, capture_photo, hc, hp]
      · exact ⟨[], by simp [stepApp, capture_and_scan, capture_photo, hc, hp], by simp⟩

theorem dbGet_step (a : Action) (st : AppState) (i : Nat) (r : Scan)
    (h : dbGet st.db i = some r) :
    dbGet (stepApp a st).2.db i = some r := by
  obtain ⟨tail, htail, -⟩ := db_step_append a st
  unfold dbGet at h ⊢
  rw [htail, List.find?_append, h]
  rfl

theorem dbGet_runFrom (st : AppState) (acts : List Action) (i : Nat) (r : Scan)
    (h : dbGet st.db i = some r) :
    dbGet (runFrom st acts).db i = some r := by
  induction acts generalizing st with
  | nil => exact h
  | cons a acts ih => exact ih _ (dbGet_step a st i r h)

end Oracle

namespace Oracle

/-- Claim C1: `POST /scan` appends exactly one new `Scan` row, its status is
`"uploaded"`, its `image_path` exists on disk afterwards, and the file at
that path holds the uploaded bytes. -/
theorem create_scan_one_uploaded_row_file_on_disk
    (ts filename : String) (content : List Nat) (now : Nat) (st : AppState) :
    ∃ r : Scan,
      (create_scan ts filename content now st).2.db = st.db ++ [r] ∧
      r.status = "uploaded" ∧
      fsRead (create_scan ts filename content now st).2.fs r.image_path = some content ∧
      fsExists (create_scan ts filename content now st).2.fs r.image_path = true := by
  refine ⟨_, rfl, rfl, ?_, ?_⟩ <;>
    simp [create_scan, save_upload, fsWrite, fsRead, fsExists]

/-- Claim C2: `POST /capture` with no resolvable camera binary returns the
500 `HTMLResponse` wrapping the `RuntimeError` message and leaves the state
(in particular the database) unchanged. -/
theorem capture_no_camera_500_no_row (env : CamEnv) (ts : String) (now : Nat)
    (st : AppState) (h : camera_bin env = none) :
    (capture_and_scan env ts now st).1
      = .html ("<h3>" ++ noCameraMsg ++ "</h3>") 500 ∧
    400 ≤ ((capture_and_scan env ts now st).1).code ∧
    (capture_and_scan env ts now st).2 = st := by
  simp [capture_and_scan, capture_photo, h, Response.code]

/-- Witness for C2 at a concrete camera-less host and the empty state. -/
theorem capture_no_camera_500_no_row_witness :
    (capture_and_scan noCamEnv "20240101_000000" 0 AppState.init).1
      = .html ("<h3>" ++ noCameraMsg ++ "</h3>") 500 ∧
    400 ≤ ((capture_and_scan noCamEnv "20240101_000000" 0 AppState.init).1).code ∧
    (capture_and_scan noCamEnv "20240101_000000" 0 AppState.init).2 = AppState.init :=
  capture_no_camera_500_no_row noCamEnv "20240101_000000" 0 AppState.init rfl

/-- Claim C3: `GET /scan/{id}` for an id absent from the table returns the
404 not-found `HTMLResponse` and changes nothing. -/
theorem scan_show_missing_404 (i : Nat) (st : AppState)
    (h : dbGet st.db i = none) :
    (scan_show i st).1 = .html "<h3>Scan not found.</h3>" 404 ∧
    (scan_show i st).2 = st := by
  simp [scan_show, h]

/-- Witness for C3: id 1 on the empty database. -/
theorem scan_show_missing_404_witness :
    (scan_show 1 AppState.init).1 = .html "<h3>Scan not found.</h3>" 404 ∧
    (scan_show 1 AppState.init).2 = AppState.init :=
  scan_show_missing_404 1 AppState.init rfl

/-- Claim C4: once a row is stored, `GET /scan/{id}` — after any further
sequence of handled requests — renders `scan_show.html` carrying that very
row, hence the `image_path` value stored at creation, and changes nothing. -/
theorem scan_show_found_returns_stored_image_path
    (st : AppState) (i : Nat) (r : Scan) (acts : List Action)
    (h : dbGet st.db i = some r) :
    (scan_show i (runFrom st acts)).1
      = .page "scan_show.html" (some r) (some (fs_path_to_url r.image_path)) ∧
    (scan_show i (runFrom st acts)).2 = runFrom st acts := by
  have hs := dbGet_runFrom st acts i r h
  simp [scan_show, hs]

/-- Witness for C4: create one scan, serve an unrelated page, then fetch
the row back by id. -/
theorem scan_show_found_returns_stored_image_path_witness :
    (scan_show 1 (runFrom (create_scan "t" "x" [9] 7 AppState.init).2
        [Action.getHome])).1
      = .page "scan_show.html"
          (some { id := 1, image_path := "data/images/scan_t.jpg",
                  status := "uploaded", specimen := none, captured_at := 7 })
          (some (fs_path_to_url "data/images/scan_t.jpg")) ∧
    (scan_show 1 (runFrom (create_scan "t" "x" [9] 7 AppState.init).2
        [Action.getHome])).2
      = runFrom (create_scan "t" "x" [9] 7 AppState.init).2 [Action.getHome] :=
  scan_show_found_returns_stored_image_path
    (create_scan "t" "x" [9] 7 AppState.init).2 1
    { id := 1, image_path := "data/images/scan_t.jpg",
      status := "uploaded", specimen := none, captured_at := 7 }
    [Action.getHome] rfl

/-- Claim C5: every handler leaves the existing rows exactly where they
were, with unchanged fields, and appends at most one new row — nothing is
ever updated in place or deleted. -/
theorem handlers_only_insert_or_read (a : Action) (st : AppState) :
    ∃ tail : List Scan, (stepApp a st).2.db = st.db ++ tail ∧ tail.length ≤ 1 :=
  db_step_append a st

/-- Claim C8: a successful `POST /scan` and a successful `POST /capture`
each persist the image bytes to the file, append exactly one row whose
`image_path` is that file and whose id is the fresh key, and return a 303
redirect to `/scan/{id}` of the new row. -/
theorem success_paths_write_insert_redirect
    (ts filename : String) (content : List Nat) (now : Nat)
    (env : CamEnv) (st : AppState)
    (hcam : camera_bin env ≠ none) (hok : env.procSucceeds = true) :
    (∃ r : Scan,
      (create_scan ts filename content now st).2.db = st.db ++ [r] ∧
      fsRead (create_scan ts filename content now st).2.fs r.image_path
        = some content ∧
      r.id = st.nextId ∧
      (create_scan ts filename content now st).1
        = .redirect ("/scan/" ++ toString r.id) 303) ∧
    (∃ r : Scan,
      (capture_and_scan env ts now st).2.db = st.db ++ [r] ∧
      fsRead (capture_and_scan env ts now st).2.fs r.image_path
        = some env.camBytes ∧
      r.id = st.nextId ∧
      (capture_and_scan env ts now st).1
        = .redirect ("/scan/" ++ toString r.id) 303) := by
  constructor
  · refine ⟨_, rfl, ?_, rfl, rfl⟩
    simp [create_scan, save_upload, fsWrite, fsRead]
  · cases hc : camera_bin env with
    | none => exact absurd hc hcam
    | some c =>
      refine ⟨{ id := st.nextId,
                image_path := pathJoin IMG_DIR ("capture_" ++ ts ++ ".jpg"),
                status := "captured", specimen := none,
                captured_at := now }, ?_, ?_, rfl, ?_⟩ <;>
        simp [capture_and_scan, capture_photo, fsWrite, fsRead, hc, hok]

/-- Witness for C8 on a host with a working `rpicam-still`. -/
theorem success_paths_write_insert_redirect_witness :
    camera_bin okCamEnv ≠ none ∧ okCamEnv.procSucceeds = true ∧
    ((∃ r : Scan,
      (create_scan "t" "x.PNG" [1] 2 AppState.init).2.db
        = AppState.init.db ++ [r] ∧
      fsRead (create_scan "t" "x.PNG" [1] 2 AppState.init).2.fs r.image_path
        = some [1] ∧
      r.id = AppState.init.nextId ∧
      (create_scan "t" "x.PNG" [1] 2 AppState.init).1
        = .redirect ("/scan/" ++ toString r.id) 303) ∧
    (∃ r : Scan,
      (capture_and_scan okCamEnv "t" 2 AppState.init).2.db
        = AppState.init.db ++ [r] ∧
      fsRead (capture_and_scan okCamEnv "t" 2 AppState.init).2.fs r.image_path
        = some okCamEnv.camBytes ∧
      r.id = AppState.init.nextId ∧
      (capture_and_scan okCamEnv "t" 2 AppState.init).1
        = .redirect ("/scan/" ++ toString r.id) 303)) :=
  ⟨by decide, rfl,
    success_paths_write_insert_redirect "t" "x.PNG" [1] 2 okCamEnv
      AppState.init (by decide) rfl⟩

/-- Lowercasing keeps a string nonempty. -/
theorem lowerStr_eq_empty_iff (s : String) : lowerStr s = "" ↔ s = "" := by
  cases s with
  | mk data => simp [lowerStr, String.ext_iff]

/-- Claim C9: the stored upload name is `scan_<timestamp><suffix>` under
`IMG_DIR`, where the suffix is `".jpg"` when the filename has no extension
and the lowercased extension otherwise. -/
theorem save_upload_stored_name (ts filename : String) (content : List Nat)
    (st : AppState) :
    (pathSuffix filename = "" →
      (save_upload ts filename content st).1
        = pathJoin IMG_DIR ("scan_" ++ ts ++ ".jpg")) ∧
    (pathSuffix filename ≠ "" →
      (save_upload ts filename content st).1
        = pathJoin IMG_DIR ("scan_" ++ ts ++ lowerStr (pathSuffix filename))) := by
  constructor
  · intro h
    simp [save_upload, h, (lowerStr_eq_empty_iff "").mpr rfl]
  · intro h
    have hne : lowerStr (pathSuffix filename) ≠ "" :=
      fun hc => h ((lowerStr_eq_empty_iff _).mp hc)
    simp [save_upload, hne]

/-- Witness for C9: an uppercase extension is stored lowercased. -/
theorem save_upload_stored_name_witness :
    pathSuffix "Leaf.PNG" ≠ "" ∧
    (save_upload "t" "Leaf.PNG" [] AppState.init).1
      = pathJoin IMG_DIR ("scan_" ++ "t" ++ lowerStr (pathSuffix "Leaf.PNG")) :=
  ⟨by decide,
    (save_upload_stored_name "t" "Leaf.PNG" [] AppState.init).2 (by decide)⟩

/-- Claim C10: a row present after a request that was not present before —
i.e. any row a handler created — has `specimen = none`. -/
theorem new_rows_specimen_none (a : Action) (st : AppState) (r : Scan)
    (hmem : r ∈ (stepApp a st).2.db) (hold : r ∉ st.db) :
    r.specimen = none := by
  obtain ⟨tail, htail, hlen⟩ := db_step_append a st
  rw [htail] at hmem
  rcases List.mem_append.mp hmem with hmem | hmem
  · exact absurd hmem hold
  · cases a with
    | getHome => simp [stepApp] at htail; simp [htail] at hmem
    | getScanNew => simp [stepApp] at htail; simp [htail] at hmem
    | getSpecimens => simp [stepApp] at htail; simp [htail] at hmem
    | getScan i =>
      have hdb : (stepApp (Action.getScan i) st).2.db = st.db := by
        cases h : dbGet st.db i <;> simp [stepApp, scan_show, h]
      rw [hdb] at htail
      have : tail = [] := by
        have := List.append_cancel_left (htail.symm.trans (List.append_nil st.db).symm)
        simpa using this.symm
      simp [this] at hmem
    | postScan ts filename content now =>
      have : (stepApp (Action.postScan ts filename content now) st).2.db
          = st.db ++ [{ id := st.nextId,
                        image_path := (save_upload ts filename content st).1,
                        status := "uploaded", specimen := none,
                        captured_at := now }] := rfl
      rw [this] at htail
      have htail2 := List.append_cancel_left htail
      rw [← htail2] at hmem
      simp at hmem
      simp [hmem]
    | postCapture env ts now =>
      cases hc : camera_bin env with
      | none =>
        have hdb : (stepApp (Action.postCapture env ts now) st).2.db = st.db := by
          simp [stepApp, capture_and_scan, capture_photo, hc]
        rw [hdb] at htail
        have : tail = [] := by
          have := List.append_cancel_left (htail.symm.trans (List.append_nil st.db).symm)
          simpa using this.symm
        simp [this] at hmem
      | some c =>
        by_cases hp : env.procSucceeds = true
        · have : (stepApp (Action.postCapture env ts now) st).2.db
              = st.db ++ [{ id := st.nextId,
                            image_path := pathJoin IMG_DIR ("capture_" ++ ts ++ ".jpg"),
                            status := "captured", specimen := none,
                            captured_at := now }] := by
            simp [stepApp, capture_and_scan, capture_photo, hc, hp]
          rw [this] at htail
          have htail2 := List.append_cancel_left htail
          rw [← htail2] at hmem
          simp at hmem
          simp [hmem]
        · have hdb : (stepApp (Action.postCapture env ts now) st).2.db = st.db := by
            simp [stepApp, capture_and_scan, capture_photo, hc, hp]
          rw [hdb] at htail
          have : tail = [] := by
            have := List.append_cancel_left (htail.symm.trans (List.append_nil st.db).symm)
            simpa using this.symm
          simp [this] at hmem

/-- A list is a prefix of itself extended on the right. -/
theorem isPrefixOf_append_self (l m : List Char) : l.isPrefixOf (l ++ m) = true := by
  induction l with
  | nil => cases m <;> rfl
  | cons c cs ih => simp [List.isPrefixOf, ih]

/-- Any path built by joining a name onto `IMG_DIR` lies under `IMG_DIR`. -/
theorem underImg_pathJoin (name : String) :
    UnderImg (pathJoin IMG_DIR name) = true := by
  have hdata : (pathJoin IMG_DIR name).data = (IMG_DIR ++ "/").data ++ name.data := rfl
  unfold UnderImg
  rw [hdata]
  exact isPrefixOf_append_self _ _

/-- After writing a file, its path matches exactly one entry. -/
theorem countP_fsWrite_self (fs : List (String × List Nat)) (p : String)
    (b : List Nat) :
    (fsWrite fs p b).countP (fun e => e.1 == p) = 1 := by
  unfold fsWrite
  rw [List.countP_cons]
  have hz : (fs.filter (fun e => e.1 != p)).countP (fun e => e.1 == p) = 0 := by
    rw [List.countP_eq_zero]
    intro e he
    have := (List.mem_filter.mp he).2
    simpa using this
  simp [hz]

/-- Writing one path does not change how many entries any other path
matches. -/
theorem countP_fsWrite_ne (fs : List (String × List Nat)) (p q : String)
    (b : List Nat) (h : q ≠ p) :
    (fsWrite fs p b).countP (fun e => e.1 == q)
      = fs.countP (fun e => e.1 == q) := by
  unfold fsWrite
  rw [List.countP_cons]
  have hhead : ((p, b).1 == q) = false := by
    simp
    exact fun hc => h hc.symm
  have hfilter : ∀ l : List (String × List Nat),
      (l.filter (fun e => e.1 != p)).countP (fun e => e.1 == q)
        = l.countP (fun e => e.1 == q) := by
    intro l
    induction l with
    | nil => rfl
    | cons e es ih =>
      by_cases hp : e.1 = p
      · have hcq : (e.1 == q) = false := by
          simp only [beq_eq_false_iff_ne, ne_eq, hp]
          exact fun hc => h hc.symm
        rw [List.filter_cons_of_neg (by simp [hp]), ih, List.countP_cons, hcq]
        simp
      · rw [List.filter_cons_of_pos (by simp [hp]), List.countP_cons,
          List.countP_cons, ih]
  simp [hhead, hfilter]

/-- Writing a file keeps the on-disk paths distinct. -/
theorem nodup_keys_fsWrite (fs : List (String × List Nat)) (p : String)
    (b : List Nat) (h : (fs.map Prod.fst).Nodup) :
    ((fsWrite fs p b).map Prod.fst).Nodup := by
  unfold fsWrite
  rw [List.map_cons]
  refine List.nodup_cons.mpr ⟨?_, ?_⟩
  · intro hmem
    obtain ⟨e, he, heq⟩ := List.mem_map.mp hmem
    have := (List.mem_filter.mp he).2
    rw [heq] at this
    simp at this
  · exact h.sublist (List.Sublist.map Prod.fst (List.filter_sublist fs))

/-- One request preserves the data-model invariant. -/
theorem inv_step (a : Action) (st : AppState) (h : Inv st) :
    Inv (stepApp a st).2 := by
  obtain ⟨hnd, hrows⟩ := h
  cases a with
  | getHome => exact ⟨hnd, hrows⟩
  | getScanNew => exact ⟨hnd, hrows⟩
  | getSpecimens => exact ⟨hnd, hrows⟩
  | getScan i =>
    have hst : (stepApp (Action.getScan i) st).2 = st := by
      cases hg : dbGet st.db i <;> simp [stepApp, scan_show, hg]
    rw [hst]
    exact ⟨hnd, hrows⟩
  | postScan ts filename content now =>
    refine ⟨nodup_keys_fsWrite _ _ _ hnd, ?_⟩
    intro r hr
    rcases List.mem_append.mp hr with hr | hr
    · obtain ⟨hc, hu⟩ := hrows r hr
      by_cases hpq : r.image_path = (save_upload ts filename content st).1
      · rw [hpq]
        exact ⟨countP_fsWrite_self _ _ _, hpq ▸ hu⟩
      · exact ⟨(countP_fsWrite_ne _ _ _ _ hpq).trans hc, hu⟩
    · have : r = { id := st.nextId,
                   image_path := (save_upload ts filename content st).1,
                   status := "uploaded", specimen := none,
                   captured_at := now } := by simpa using hr
      rw [this]
      exact ⟨countP_fsWrite_self _ _ _, underImg_pathJoin _⟩
  | postCapture env ts now =>
    cases hc : camera_bin env with
    | none =>
      have hst : (stepApp (Action.postCapture env ts now) st).2 = st := by
        simp [stepApp, capture_and_scan, capture_photo, hc]
      rw [hst]
      exact ⟨hnd, hrows⟩
    | some c =>
      by_cases hp : env.procSucceeds = true
      · simp only [stepApp, capture_and_scan, capture_photo, hc, hp, if_true]
        refine ⟨nodup_keys_fsWrite _ _ _ hnd, ?_⟩
        intro r hr
        rcases List.mem_append.mp hr with hr | hr
        · obtain ⟨hcnt, hu⟩ := hrows r hr
          by_cases hpq : r.image_path = pathJoin IMG_DIR ("capture_" ++ ts ++ ".jpg")
          · rw [hpq]
            exact ⟨countP_fsWrite_self _ _ _, hpq ▸ hu⟩
          · exact ⟨(countP_fsWrite_ne _ _ _ _ hpq).trans hcnt, hu⟩
        · have : r = { id := st.nextId,
                       image_path := pathJoin IMG_DIR ("capture_" ++ ts ++ ".jpg"),
                       status := "captured", specimen := none,
                       captured_at := now } := by simpa using hr
          rw [this]
          exact ⟨countP_fsWrite_self _ _ _, underImg_pathJoin _⟩
      · have hst : (stepApp (Action.postCapture env ts now) st).2 = st := by
          simp [stepApp, capture_and_scan, capture_photo, hc, hp]
        rw [hst]
        exact ⟨hnd, hrows⟩

/-- Claim C6: in every state the application can reach, the stored files
have pairwise distinct paths and every row's `image_path` matches exactly
one on-disk file, located under the images directory. -/
theorem reachable_rows_one_file_under_imgdir (st : AppState)
    (h : Reachable st) : Inv st := by
  induction h with
  | init =>
    refine ⟨List.nodup_nil, ?_⟩
    intro r hr
    cases hr
  | step a hst ih => exact inv_step a _ ih

/-- Witness for C6: the state after one upload into the fresh database. -/
theorem reachable_rows_one_file_under_imgdir_witness :
    Inv (stepApp (Action.postScan "t" "x" [] 0) AppState.init).2 :=
  reachable_rows_one_file_under_imgdir _
    (Reachable.step (Action.postScan "t" "x" [] 0) Reachable.init)

/-- Claim C7: whenever a handler returns an HTTP error response, the state
is untouched and the response is one of exactly three concrete
human-readable error pages — the two 500 capture failures (camera binary
missing, camera process failed) or the 404 missing-scan page; every other
response of the application is a success. -/
theorem error_responses_two_kinds (a : Action) (st : AppState)
    (h : 400 ≤ ((stepApp a st).1).code) :
    (stepApp a st).2 = st ∧
    ((stepApp a st).1 = .html ("<h3>" ++ noCameraMsg ++ "</h3>") 500 ∨
     (stepApp a st).1
       = .html "<h3>Camera capture failed (rpi/libcamera error)</h3>" 500 ∨
     (stepApp a st).1 = .html "<h3>Scan not found.</h3>" 404) := by
  cases a with
  | getHome => simp [stepApp, Response.code] at h
  | getScanNew => simp [stepApp, Response.code] at h
  | getSpecimens => simp [stepApp, Response.code] at h
  | postScan ts filename content now =>
    simp [stepApp, create_scan, Response.code] at h
  | postCapture env ts now =>
    cases hc : camera_bin env with
    | none =>
      refine ⟨?_, Or.inl ?_⟩ <;>
        simp [stepApp, capture_and_scan, capture_photo, hc]
    | some c =>
      by_cases hp : env.procSucceeds = true
      · simp [stepApp, capture_and_scan, capture_photo, hc, hp,
          Response.code] at h
      · refine ⟨?_, Or.inr (Or.inl ?_)⟩ <;>
          simp [stepApp, capture_and_scan, capture_photo, hc, hp]
  | getScan i =>
    cases hg : dbGet st.db i with
    | none =>
      refine ⟨?_, Or.inr (Or.inr ?_)⟩ <;> simp [stepApp, scan_show, hg]
    | some r =>
      simp [stepApp, scan_show, hg, Response.code] at h

/-- Witness for C7: fetching a missing scan id from the fresh database. -/
theorem error_responses_two_kinds_witness :
    400 ≤ ((stepApp (Action.getScan 1) AppState.init).1).code ∧
    ((stepApp (Action.getScan 1) AppState.init).2 = AppState.init ∧
     ((stepApp (Action.getScan 1) AppState.init).1
        = .html ("<h3>" ++ noCameraMsg ++ "</h3>") 500 ∨
      (stepApp (Action.getScan 1) AppState.init).1
        = .html "<h3>Camera capture failed (rpi/libcamera error)</h3>" 500 ∨
      (stepApp (Action.getScan 1) AppState.init).1
        = .html "<h3>Scan not found.</h3>" 404)) :=
  ⟨by decide, error_responses_two_kinds (Action.getScan 1) AppState.init (by decide)⟩

/-- Witness for C10: the row created by one upload into the fresh state. -/
theorem new_rows_specimen_none_witness :
    ({ id := 1, image_path := "data/images/scan_t.jpg", status := "uploaded",
       specimen := none, captured_at := 0 } : Scan)
      ∈ (stepApp (Action.postScan "t" "x" [] 0) AppState.init).2.db ∧
    ({ id := 1, image_path := "data/images/scan_t.jpg", status := "uploaded",
       specimen := none, captured_at := 0 } : Scan).specimen = none :=
  ⟨by decide,
    new_rows_specimen_none (Action.postScan "t" "x" [] 0) AppState.init
      { id := 1, image_path := "data/images/scan_t.jpg", status := "uploaded",
        specimen := none, captured_at := 0 }
      (by decide) (by decide)⟩

end Oracle
